import Mathlib

/-!
Verification of the AI-tag inference and fallback pipeline of this
repository against its specification.

The embedded source files are:
* `src/app/api/ai-tag/route.ts` — the tag enrichment engine
  (`ensureMinTags` and its helper tables), the heuristic fallback,
  and the `POST` route handler (the "Generative Tag Client");
* `src/app/api/aiTag.ts` — the client-side tag gate (`aiTag`).

Platform primitives used by the source (`JSON.parse`, `JSON.stringify`,
`String.prototype.toLowerCase`, `String.prototype.trim`, `new URL`) are
modelled explicitly below; each model carries a doc comment naming the
primitive it stands for and any simplification made.
-/

namespace AiTagPipeline

/-! ## JavaScript value model -/

/-- A JSON/JavaScript number as produced by the JSON grammar: a decimal
mantissa together with a power-of-ten exponent.  `⟨7, -1⟩` is `0.7`.
The structural representation avoids committing to binary floating point;
no claim in this development compares numeric magnitudes. -/
structure JsNum where
  mant : Int
  exp10 : Int
deriving DecidableEq

/-- A JSON value (the result of a successful `JSON.parse`).  Object
fields are kept in textual order; duplicate keys are permitted and, as in
JavaScript, the last occurrence of a key wins on lookup. -/
inductive Json where
  | null : Json
  | bool (b : Bool) : Json
  | num (v : JsNum) : Json
  | str (s : String) : Json
  | arr (xs : List Json) : Json
  | obj (fields : List (String × Json)) : Json

/-- Property lookup on an object's field list: the last binding of the
key wins, mirroring JavaScript object construction semantics. -/
def objGet (fs : List (String × Json)) (k : String) : Option Json :=
  (fs.reverse.find? (fun p => p.1 == k)).map (·.2)

/-- Property access `v.k` through an optional chain (`v?.k`): `none`
(undefined), `Json.null`, and non-object values all yield undefined. -/
def jsField (v : Option Json) (k : String) : Option Json :=
  match v with
  | some (Json.obj fs) => objGet fs k
  | _ => none

/-- JavaScript truthiness of a JSON value. -/
def truthy : Json → Bool
  | Json.null => false
  | Json.bool b => b
  | Json.num v => v.mant != 0
  | Json.str s => s != ""
  | Json.arr _ => true
  | Json.obj _ => true

/-- Truthiness where `none` stands for `undefined`. -/
def truthyOpt : Option Json → Bool
  | some v => truthy v
  | none => false

def Json.isStr : Json → Bool
  | Json.str _ => true
  | _ => false

def Json.asStr : Json → Option String
  | Json.str s => some s
  | _ => none

/-! ## String utilities (models of the JavaScript built-ins)

All string work is done on the underlying character lists so that every
definition evaluates by kernel reduction on concrete inputs. -/

/-- Model of `String.prototype.toLowerCase`, restricted to ASCII case
folding.  Every cased character appearing in the embedded tables and in
the claims is ASCII; Japanese text has no case. -/
def jsLowerChar (c : Char) : Char :=
  if 'A' ≤ c ∧ c ≤ 'Z' then Char.ofNat (c.toNat + 32) else c

def jsLower (s : String) : String :=
  String.mk (s.data.map jsLowerChar)

def jsWhitespace (c : Char) : Bool :=
  [9, 10, 11, 12, 13, 32].contains c.toNat

/-- Model of `String.prototype.trim` (ASCII whitespace). -/
def jsTrim (s : String) : String :=
  String.mk (((s.data.dropWhile jsWhitespace).reverse.dropWhile jsWhitespace).reverse)

/-- Model of `String.prototype.slice(0, n)` / length-bounded prefix. -/
def jsTake (s : String) (n : Nat) : String :=
  String.mk (s.data.take n)

/-- The pattern `pat` is a prefix of the second list. -/
def startsWithL : List Char → List Char → Bool
  | [], _ => true
  | p :: ps, xs =>
    match xs with
    | x :: xt => p = x && startsWithL ps xt
    | [] => false

/-- The pattern `pat` occurs contiguously somewhere in the second list. -/
def infixL (pat : List Char) : List Char → Bool
  | [] => startsWithL pat []
  | x :: xs => startsWithL pat (x :: xs) || infixL pat xs

/-- The string `sub` occurs as a contiguous substring of `s`
(model of `String.prototype.includes`). -/
def substrB (sub s : String) : Bool :=
  infixL sub.data s.data

def isAsciiAlphaNum (c : Char) : Bool :=
  ('a' ≤ c ∧ c ≤ 'z') ∨ ('A' ≤ c ∧ c ≤ 'Z') ∨ c.isDigit

/-! ## Model of `JSON.parse`

A strict recursive-descent parser for the JSON grammar (RFC 8259), the
semantics of the platform's `JSON.parse`: insignificant whitespace is
the four JSON whitespace characters, strings use the JSON escape set,
numbers are strict (no leading zeros, no bare `.`), and any trailing
garbage makes the whole parse fail.  Lone-surrogate `\u` escapes, which
`Char` cannot represent, fall back to the null character; no input used
in this development contains them. -/

def jsonWs (c : Char) : Bool :=
  [32, 9, 10, 13].contains c.toNat

def skipWs (cs : List Char) : List Char :=
  cs.dropWhile jsonWs

def hexVal (c : Char) : Option Nat :=
  let n := c.toNat
  if 48 ≤ n ∧ n ≤ 57 then some (n - 48)
  else if 97 ≤ n ∧ n ≤ 102 then some (n - 87)
  else if 65 ≤ n ∧ n ≤ 70 then some (n - 55)
  else none

/-- Parse the body of a JSON string literal (the opening quote already
consumed), returning the decoded string and the rest of the input. -/
def pStringBody (acc : List Char) : List Char → Option (String × List Char)
  | [] => none
  | c :: rest =>
    if c = '"' then some (String.mk acc.reverse, rest)
    else if c = '\\' then
      match rest with
      | [] => none
      | e :: rest2 =>
        if e = '"' then pStringBody ('"' :: acc) rest2
        else if e = '\\' then pStringBody ('\\' :: acc) rest2
        else if e = '/' then pStringBody ('/' :: acc) rest2
        else if e = 'b' then pStringBody ('\x08' :: acc) rest2
        else if e = 'f' then pStringBody ('\x0c' :: acc) rest2
        else if e = 'n' then pStringBody ('\n' :: acc) rest2
        else if e = 'r' then pStringBody ('\r' :: acc) rest2
        else if e = 't' then pStringBody ('\t' :: acc) rest2
        else if e = 'u' then
          match rest2 with
          | h1 :: h2 :: h3 :: h4 :: rest3 =>
            match hexVal h1, hexVal h2, hexVal h3, hexVal h4 with
            | some a, some b, some c', some d =>
              pStringBody (Char.ofNat (((a * 16 + b) * 16 + c') * 16 + d) :: acc) rest3
            | _, _, _, _ => none
          | _ => none
        else none
    else if c.toNat < 32 then none
    else pStringBody (c :: acc) rest

def digitsToNat (ds : List Char) : Nat :=
  ds.foldl (fun acc d => acc * 10 + (d.toNat - '0'.toNat)) 0

/-- Parse a strict JSON number. -/
def pNumber (cs : List Char) : Option (JsNum × List Char) :=
  let neg : Bool := cs.head? = some '-'
  let cs1 := if neg then cs.tail else cs
  let (intDs, cs2) :=
    match cs1 with
    | '0' :: r => (['0'], r)
    | _ => cs1.span Char.isDigit
  if intDs.isEmpty then none else
  let (fracDs, cs3) :=
    match cs2 with
    | '.' :: r =>
      let (ds, r2) := r.span Char.isDigit
      (ds, r2)
    | _ => ([], cs2)
  if cs2 ≠ cs3 ∧ fracDs.isEmpty then none else
  let (expOk, expVal, cs4) :=
    match cs3 with
    | 'e' :: r | 'E' :: r =>
      let (esign, r1) := match r with
        | '+' :: r2 => ((1 : Int), r2)
        | '-' :: r2 => ((-1 : Int), r2)
        | _ => ((1 : Int), r)
      let (eds, r2) := r1.span Char.isDigit
      (!eds.isEmpty, esign * (digitsToNat eds : Int), r2)
    | _ => (true, (0 : Int), cs3)
  if expOk = false then none else
  let mantNat : Nat := digitsToNat (intDs ++ fracDs)
  let mant : Int := if neg then -(mantNat : Int) else (mantNat : Int)
  some (JsNum.mk mant (expVal - (fracDs.length : Int)), cs4)

mutual

/-- Parse one JSON value.  `fuel` bounds the recursion depth; the
top-level entry point supplies fuel larger than any possible nesting. -/
def pJson : Nat → List Char → Option (Json × List Char)
  | 0, _ => none
  | fuel + 1, cs =>
    let cs2 := skipWs cs
    if startsWithL "null".data cs2 then some (Json.null, cs2.drop 4)
    else if startsWithL "true".data cs2 then some (Json.bool true, cs2.drop 4)
    else if startsWithL "false".data cs2 then some (Json.bool false, cs2.drop 5)
    else match cs2 with
    | '"' :: r => (pStringBody [] r).map (fun p => (Json.str p.1, p.2))
    | '[' :: r =>
      (match skipWs r with
       | ']' :: r2 => some (Json.arr [], r2)
       | r2 => pElems fuel r2 [])
    | c :: r =>
      if c.toNat = 123 then
        match skipWs r with
        | r2 =>
          if r2.head? = some (Char.ofNat 125) then some (Json.obj [], r2.tail)
          else pMembers fuel r2 []
      else if c = '-' ∨ c.isDigit then
        (pNumber (c :: r)).map (fun p => (Json.num p.1, p.2))
      else none
    | [] => none

/-- Parse array elements (the head of the first element at the front). -/
def pElems : Nat → List Char → List Json → Option (Json × List Char)
  | 0, _, _ => none
  | fuel + 1, cs, acc =>
    match pJson fuel cs with
    | none => none
    | some (v, rest) =>
      match skipWs rest with
      | ',' :: r2 => pElems fuel r2 (v :: acc)
      | ']' :: r2 => some (Json.arr (v :: acc).reverse, r2)
      | _ => none

/-- Parse object members (the opening quote of the first key at the
front). -/
def pMembers : Nat → List Char → List (String × Json) →
    Option (Json × List Char)
  | 0, _, _ => none
  | fuel + 1, cs, acc =>
    match cs with
    | '"' :: r =>
      match pStringBody [] r with
      | none => none
      | some (k, rest) =>
        match skipWs rest with
        | ':' :: r2 =>
          match pJson fuel r2 with
          | none => none
          | some (v, rest2) =>
            match skipWs rest2 with
            | ',' :: r3 =>
              (match skipWs r3 with
               | r4 => pMembers fuel r4 ((k, v) :: acc))
            | c :: r3 =>
              if c.toNat = 125 then some (Json.obj ((k, v) :: acc).reverse, r3)
              else none
            | [] => none
        | _ => none
    | _ => none

end

/-- Model of `JSON.parse`: `none` is a thrown `SyntaxError`. -/
def jsonParse (s : String) : Option Json :=
  match pJson (2 * s.data.length + 2) s.data with
  | some (v, rest) => if skipWs rest = [] then some v else none
  | none => none

/-! ## Models of `JSON.stringify` and JavaScript string conversion

These appear only inside diagnostic message strings.  Number rendering
approximates the double-to-shortest-string algorithm by printing the
mantissa/exponent pair; no theorem below depends on it. -/

def hexDigitChar (n : Nat) : Char :=
  Char.ofNat (if n ≤ 9 then 48 + n else 87 + n)

def jsonEscapeChar (c : Char) : List Char :=
  if c = '"' then ['\\', '"']
  else if c = '\\' then ['\\', '\\']
  else if c = '\x08' then ['\\', 'b']
  else if c = '\t' then ['\\', 't']
  else if c = '\n' then ['\\', 'n']
  else if c = '\x0c' then ['\\', 'f']
  else if c = '\r' then ['\\', 'r']
  else if c.toNat < 32 then
    '\\' :: 'u' :: '0' :: '0' :: hexDigitChar (c.toNat / 16) ::
      hexDigitChar (c.toNat % 16) :: []
  else [c]

def jsonQuote (s : String) : String :=
  "\"" ++ String.mk (s.data.foldr (fun c acc => jsonEscapeChar c ++ acc) []) ++ "\""

def jsNumRender (n : JsNum) : String :=
  if n.exp10 = 0 then toString n.mant
  else toString n.mant ++ "e" ++ toString n.exp10

def jsonStringify : Json → String
  | Json.null => "null"
  | Json.bool true => "true"
  | Json.bool false => "false"
  | Json.num n => jsNumRender n
  | Json.str s => jsonQuote s
  | Json.arr xs =>
    "[" ++ String.intercalate "," (xs.attach.map (fun x => jsonStringify x.1)) ++ "]"
  | Json.obj fs =>
    "\x7b" ++
      String.intercalate ","
        (fs.attach.map (fun p => jsonQuote p.1.1 ++ ":" ++ jsonStringify p.1.2)) ++
      "\x7d"
decreasing_by
  all_goals simp_wf
  · have h := List.sizeOf_lt_of_mem x.2
    omega
  · obtain ⟨⟨a, b⟩, hp⟩ := p
    have h := List.sizeOf_lt_of_mem hp
    simp at h ⊢
    omega

/-- Model of JavaScript `String(x)` / template-literal conversion
(`null` elements of an array render as the empty string, objects as
`[object Object]`). -/
def jsToString : Json → String
  | Json.null => "null"
  | Json.bool true => "true"
  | Json.bool false => "false"
  | Json.num n => jsNumRender n
  | Json.str s => s
  | Json.arr xs =>
    String.intercalate ","
      (xs.attach.map (fun x => match x with
        | ⟨Json.null, _⟩ => ""
        | ⟨y, _⟩ => jsToString y))
  | Json.obj _ => "[object Object]"
decreasing_by
  rename_i hy
  have h := List.sizeOf_lt_of_mem hy
  simp_wf
  omega

/-! ## `src/app/api/ai-tag/route.ts` — fixed lookup tables -/

/-- Table `FIXED` (route.ts lines 17–20): the padding vocabulary, in source
order. -/
def FIXED : List String :=
  ["お金", "購入", "アカウント", "タスク", "サブスク", "連絡", "学校", "仕事",
   "重要", "至急", "解約", "支払い", "請求", "更新", "期日", "メンテ", "設定",
   "障害", "連携", "動画", "音楽", "写真", "学割", "領収書", "旅行", "地名",
   "日本"]

/-- Table `BRAND_TAGS` (route.ts lines 22–34): key order is the object-literal
insertion order, which `Object.entries`/`Object.keys` preserve. -/
def BRAND_TAGS : List (String × List String) :=
  [("youtube", ["サブスク", "動画", "Google"]),
   ("youtube premium", ["サブスク", "動画", "Google"]),
   ("netflix", ["サブスク", "動画"]),
   ("spotify", ["サブスク", "音楽"]),
   ("prime video", ["サブスク", "動画", "Amazon"]),
   ("apple music", ["サブスク", "音楽", "Apple"]),
   ("icloud", ["サブスク", "Apple"]),
   ("adobe", ["サブスク", "Adobe"]),
   ("microsoft", ["サブスク", "Microsoft"]),
   ("github", ["開発", "コード", "アカウント"]),
   ("google", ["Google"])]

/-- Table `KEYWORD_TAGS` (route.ts lines 36–46).  Every regex in the source is
a plain alternation of literal substrings with the `i` flag, so each is
embedded as its list of alternatives; all cased alternatives are already
lower-case, and the `i` flag is modelled by lower-casing the subject in
`reTestI`. -/
def KEYWORD_TAGS : List (List String × List String) :=
  [(["請求", "支払", "支払い", "入金", "料金", "振込", "引き落とし", "明細", "領収書"],
    ["お金", "請求"]),
   (["購入", "買", "発注", "注文", "納品", "見積", "請求書", "領収書"], ["購入"]),
   (["解約", "退会", "停止", "キャンセル", "解除"], ["解約"]),
   (["更新", "自動更新", "サブスク", "subscription"], ["サブスク", "更新"]),
   (["todo", "やる", "締切", "期限", "提出", "課題", "タスク"], ["タスク", "期日"]),
   (["ログイン", "account", "アカウント", "password", "パスワード", "2fa", "otp",
     "ユーザー"], ["アカウント", "認証"]),
   (["問い合わせ", "連絡", "メール", "電話", "サポート", "サポセン"], ["連絡"]),
   (["動画", "movie", "video", "vod"], ["動画"]),
   (["音楽", "music", "song", "曲"], ["音楽"])]

/-- Table `GEO_TAGS` (route.ts lines 48–52), same alternation shape. -/
def GEO_TAGS : List (List String × List String) :=
  [(["東京", "tokyo"], ["地名", "日本", "旅行", "関東", "首都圏"]),
   (["京都", "kyoto"], ["地名", "日本", "旅行", "関西"]),
   (["大阪", "osaka"], ["地名", "日本", "旅行", "関西"])]

/-- Table `SYN_EXPAND` (route.ts lines 54–66). -/
def SYN_EXPAND : List (String × List String) :=
  [("解約", ["キャンセル", "退会", "停止"]),
   ("請求", ["支払い", "料金", "明細"]),
   ("サブスク", ["定額", "月額", "定期"]),
   ("動画", ["映像", "VOD", "配信"]),
   ("音楽", ["ミュージック", "楽曲", "ストリーミング"]),
   ("購入", ["注文", "ショッピング", "支出"]),
   ("アカウント", ["ログイン", "ユーザー", "認証"]),
   ("旅行", ["観光", "トラベル", "観光地"]),
   ("地名", ["ロケーション", "場所"]),
   ("重要", ["優先", "注目"]),
   ("期日", ["締切", "デッドライン"])]

/-- Evaluation of `re.test(base)` for the alternation regexes above (`i` flag): some
alternative occurs in the lower-cased subject. -/
def reTestI (alts : List String) (base : String) : Bool :=
  alts.any (fun a => substrB a (jsLower base))

/-! ## `src/app/api/ai-tag/route.ts` — the enrichment engine

A JavaScript `Set<string>` iterates in insertion order, so the whole
engine is embedded over insertion-ordered duplicate-free lists:
`olInsert` is `Set.prototype.add`, and the final `Array.from(set)` is
the identity. -/

/-- Model of `set.add(x)`: append `x` unless already present. -/
def olInsert (s : List String) (x : String) : List String :=
  if x ∈ s then s else s ++ [x]

/-- Model of `l.forEach((t) => set.add(t))`. -/
def addAll (s : List String) (l : List String) : List String :=
  l.foldl olInsert s

/-- The `ctx` argument of `ensureMinTags`. -/
structure Ctx where
  base : String
  url : Option String

/-- Model of `new URL(u).hostname`, simplified from the WHATWG URL
parser: a valid scheme followed by `//` introduces an authority whose
host is the text up to the first `/`, `?` or `#`, minus any user-info
(up to the last `@`) and any `:port` suffix; a valid scheme without
`//` yields an empty hostname; anything else is a thrown `TypeError`
(`none`).  Special-scheme quirks (e.g. `http:host` without slashes) and
IPv6 brackets are not modelled; no claim depends on a specific URL. -/
def parseHostname (u : String) : Option String :=
  let cs := u.data
  let schemeCs := cs.takeWhile (fun c => c ≠ ':')
  let ok :=
    match schemeCs with
    | [] => false
    | c0 :: rest =>
      (('a' ≤ c0 ∧ c0 ≤ 'z') ∨ ('A' ≤ c0 ∧ c0 ≤ 'Z')) &&
        rest.all (fun c => isAsciiAlphaNum c || c = '+' || c = '-' || c = '.')
  if ok = false ∨ schemeCs.length = cs.length then none
  else
    let afterScheme := cs.drop (schemeCs.length + 1)
    match afterScheme with
    | '/' :: '/' :: r =>
      let auth := r.takeWhile (fun c => c ≠ '/' ∧ c ≠ '?' ∧ c ≠ '#')
      let hostPort :=
        if auth.contains '@' then (auth.reverse.takeWhile (fun c => c ≠ '@')).reverse
        else auth
      let host := hostPort.takeWhile (fun c => c ≠ ':')
      some (String.mk (host.map jsLowerChar))
    | _ => some ""

/-- Model of `String.prototype.split(".")`: splits at every dot,
keeping empty segments. -/
def splitDotAux (acc : List Char) : List Char → List (List Char)
  | [] => [acc.reverse]
  | c :: rest =>
    if c = '.' then acc.reverse :: splitDotAux [] rest
    else splitDotAux (c :: acc) rest

/-- Source function `addFromUrl` (route.ts lines 82–96). -/
def addFromUrl (url : Option String) (s : List String) : List String :=
  match url with
  | none => s
  | some u =>
    if u = "" then s
    else
      match parseHostname u with
      | none => s
      | some host0 =>
        let host := jsLower host0
        let s1 := olInsert s host
        let parts :=
          ((splitDotAux [] host.data).map String.mk).filter (fun p => p ≠ "")
        let s2 :=
          if 2 ≤ parts.length then olInsert s1 (parts.getD (parts.length - 2) "")
          else s1
        BRAND_TAGS.foldl
          (fun acc kv => if substrB kv.1 host then addAll acc kv.2 else acc) s2

/-- Test of the first date regex (one or two digits, a slash, one or two
digits) — equivalent to: some digit, slash, digit triple occurs. -/
def testDateSlash : List Char → Bool
  | [] => false
  | a :: rest =>
    (a.isDigit && (match rest with
      | '/' :: c :: _ => c.isDigit
      | _ => false)) || testDateSlash rest

/-- Test of the second date regex: four digits, then a hyphen, a slash
or 年, then a digit. -/
def testDateYear : List Char → Bool
  | [] => false
  | a :: rest =>
    ((match a :: rest with
      | a' :: b :: c :: d :: e :: f :: _ =>
        a'.isDigit && b.isDigit && c.isDigit && d.isDigit &&
          (e = '-' || e = '/' || e = '年') && f.isDigit
      | _ => false)) || testDateYear rest

/-- Test of the currency regex: a digit directly followed by 円. -/
def testYen : List Char → Bool
  | [] => false
  | a :: rest =>
    (a.isDigit && rest.head? = some '円') || testYen rest

/-- JavaScript `\w` (word character). -/
def isWordChar (c : Char) : Bool :=
  isAsciiAlphaNum c || c = '_'

/-- Test of the year-token regex (a word boundary, `20` or `19` and two
more digits, a word boundary), scanned with the preceding character for
the left boundary. -/
def testYearTokAux (prev : Option Char) : List Char → Bool
  | a :: b :: c :: d :: rest =>
    ((match prev with
      | some p => !isWordChar p
      | none => true) &&
      ((a = '2' && b = '0') || (a = '1' && b = '9')) && c.isDigit && d.isDigit &&
      (match rest with
        | x :: _ => !isWordChar x
        | [] => true)) || testYearTokAux (some a) (b :: c :: d :: rest)
  | _ => false

def testYearTok (cs : List Char) : Bool :=
  testYearTokAux none cs

/-- The character class `[ァ-ヶー]`. -/
def isKata (c : Char) : Bool :=
  ('ァ' ≤ c ∧ c ≤ 'ヶ') || c = 'ー'

/-- Global matches of `/[ァ-ヶー]{2,10}/g`: at each position the engine
takes up to 10 class characters greedily, accepts runs of length ≥ 2,
and resumes after the match. -/
def kataMatchesAux (fuel : Nat) (cs : List Char) : List String :=
  match fuel, cs with
  | 0, _ => []
  | _, [] => []
  | fuel + 1, c :: rest =>
    if isKata c then
      let seg := ((c :: rest).takeWhile isKata).take 10
      if 2 ≤ seg.length then
        String.mk seg :: kataMatchesAux fuel ((c :: rest).drop seg.length)
      else kataMatchesAux fuel rest
    else kataMatchesAux fuel rest

def kataMatches (cs : List Char) : List String :=
  kataMatchesAux (cs.length + 1) cs

def isTokenCont (c : Char) : Bool :=
  isAsciiAlphaNum c || c = '-' || c = '_' || c = '.'

/-- Global matches of `/[A-Za-z0-9][A-Za-z0-9\-_.]{1,19}/g`: an
alphanumeric start followed greedily by 1–19 continuation characters;
a failed attempt advances one position. -/
def asciiMatchesAux (fuel : Nat) (cs : List Char) : List String :=
  match fuel, cs with
  | 0, _ => []
  | _, [] => []
  | fuel + 1, c :: rest =>
    if isAsciiAlphaNum c then
      let seg := (rest.takeWhile isTokenCont).take 19
      if 1 ≤ seg.length then
        String.mk (c :: seg) :: asciiMatchesAux fuel (rest.drop seg.length)
      else asciiMatchesAux fuel rest
    else asciiMatchesAux fuel rest

def asciiMatches (cs : List Char) : List String :=
  asciiMatchesAux (cs.length + 1) cs

/-- Source function `addLooseKeywords` (route.ts lines 98–106). -/
def addLooseKeywords (base : String) (s : List String) : List String :=
  let cs := base.data
  let s1 := if testDateSlash cs || testDateYear cs then olInsert s "日付" else s
  let s2 := if testYen cs then olInsert s1 "金額" else s1
  let s3 := if testYearTok cs then olInsert s2 "年" else s2
  let s4 := ((kataMatches cs).take 3).foldl olInsert s3
  ((asciiMatches cs).take 3).foldl (fun acc t => olInsert acc (jsLower t)) s4

/-- The own-property names of `Object.prototype`.  The source reads
`SYN_EXPAND[t]` on a plain object literal (route.ts line 126): when `t`
is one of these names the lookup does not miss but returns the value
inherited from `Object.prototype` — a function, or the prototype itself
for `__proto__` — which is non-nullish and has no callable `forEach`.
-/
def OBJECT_PROTO_KEYS : List String :=
  ["constructor", "hasOwnProperty", "isPrototypeOf", "propertyIsEnumerable",
   "toLocaleString", "toString", "valueOf", "__defineGetter__",
   "__defineSetter__", "__lookupGetter__", "__lookupSetter__", "__proto__"]

/-- The message of the `TypeError` thrown by `exp?.forEach(...)` when
`exp` is a non-nullish inherited prototype member (route.ts line 127).
The exact wording is engine specific; thrown errors are modelled by a
fixed message string, and only its identity matters below. -/
def forEachTypeError : String := "exp?.forEach is not a function"

/-- One iteration of the synonym loop (route.ts lines 125–128) on the
`Except` accumulator: an own key of `SYN_EXPAND` expands; a miss that
hits an `Object.prototype` member throws the `TypeError`; any other
miss is a no-op (`exp` is `undefined` and `?.` short-circuits).  Once
an error occurs the remaining iterations never run, which the absorbing
error accumulator models. -/
def synStep (acc : Except String (List String)) (t : String) :
    Except String (List String) :=
  match acc with
  | Except.error e => Except.error e
  | Except.ok cur =>
    match (SYN_EXPAND.find? (fun p => p.1 == t)).map (·.2) with
    | some exp => Except.ok (addAll cur exp)
    | none =>
      if OBJECT_PROTO_KEYS.contains t then Except.error forEachTypeError
      else Except.ok cur

/-- The synonym pass (route.ts lines 125–128): a single iteration over a
snapshot of the set taken before the loop, throwing on the first set
member that is an `Object.prototype` key. -/
def synExpandPass (s : List String) : Except String (List String) :=
  s.foldl synStep (Except.ok s)

/-- The padding loop (route.ts lines 130–134): while the set is below
`min` and the vocabulary is not exhausted, insert the next `FIXED`
entry. -/
def padFixed (min : Nat) : List String → List String → List String
  | s, [] => s
  | s, c :: rest =>
    if s.length < min then padFixed min (olInsert s c) rest else s

/-- The set built by `ensureMinTags` up to the synonym pass (route.ts
lines 114–124): seed dedup, the three table scans and the URL phase.
These phases are total; the first fallible step is the synonym pass. -/
def ensureMinPre (seed : List String) (ctx : Ctx) : List String :=
  let s0 := (seed.filter (fun t => t ≠ "")).foldl olInsert []
  let s1 := BRAND_TAGS.foldl
    (fun s kv => if substrB kv.1 ctx.base then addAll s kv.2 else s) s0
  let s2 := KEYWORD_TAGS.foldl
    (fun s rt => if reTestI rt.1 ctx.base then addAll s rt.2 else s) s1
  let s3 := GEO_TAGS.foldl
    (fun s rt => if reTestI rt.1 ctx.base then addAll s rt.2 else s) s2
  addFromUrl ctx.url s3

/-- The contents of the set built by `ensureMinTags` (route.ts lines
108–134), before the final `slice(0, max)`; `Except.error` is the
`TypeError` the synonym pass can throw. -/
def ensureMinTagsSet (seed : List String) (ctx : Ctx) (min : Nat) :
    Except String (List String) :=
  match synExpandPass (ensureMinPre seed ctx) with
  | Except.error e => Except.error e
  | Except.ok s5 => Except.ok (padFixed min (addLooseKeywords ctx.base s5) FIXED)

/-- Source function `ensureMinTags` (route.ts lines 108–136): the built
set truncated to `max`, or the propagated synonym-pass `TypeError`. -/
def ensureMinTags (seed : List String) (ctx : Ctx)
    (min : Nat := 6) (max : Nat := 10) : Except String (List String) :=
  match ensureMinTagsSet seed ctx min with
  | Except.error e => Except.error e
  | Except.ok s => Except.ok (s.take max)

/-! ## `src/app/api/ai-tag/route.ts` — draft, heuristic and extraction -/

/-- The `Draft` type (route.ts lines 7–13).  The handler's `isDraft`
body-shape check has already accepted the body, so the optional fields
are `Option String`. -/
structure Draft where
  title : String
  type : String
  url : Option String := none
  username : Option String := none
  note : Option String := none
deriving DecidableEq

/-- The lower-cased `title note` text both the model paths and the
heuristic feed into the engine
(route.ts lines 139, 294 and 362). -/
def baseOf (d : Draft) : String :=
  jsLower (d.title ++ " " ++ d.note.getD "")

/-- The shape of every JSON body the handler returns on a 200 response.
`raw` is the model response text echoed under `trace=1`. -/
structure TagResult where
  tags : List String
  summary : String
  confidence : JsNum
  model : String
  fallback : Bool
  error : Option String := none
  raw : Option String := none
deriving DecidableEq

/-- A route response: a 200 with a `TagResult` body, a 4xx error body
(route.ts returns only 400 and 413 on non-200 paths that pass body
validation), or an exception that propagates out of the handler
uncaught — which the source can do when `heuristic()` itself throws
(see `heuristicRoute`). -/
inductive RouteResult where
  | ok (r : TagResult) : RouteResult
  | clientError (status : Nat) (msg : String) : RouteResult
  | thrown (e : String) : RouteResult
deriving DecidableEq

def RouteResult.summaryOf : RouteResult → Option String
  | RouteResult.ok r => some r.summary
  | _ => none

def RouteResult.fallbackOf : RouteResult → Option Bool
  | RouteResult.ok r => some r.fallback
  | _ => none

def RouteResult.tagsOf : RouteResult → Option (List String)
  | RouteResult.ok r => some r.tags
  | _ => none

/-- Source function `heuristic` (route.ts lines 138–147), split into its
fields; the tags come from `ensureMinTags` on an empty seed and can
therefore throw the synonym-pass `TypeError` (for example when the
draft URL contributes an `Object.prototype` key such as a host label
`constructor`). -/
def heuristicTags (d : Draft) : Except String (List String) :=
  ensureMinTags [] ⟨baseOf d, d.url⟩ 6 10

/-- The `summary` field of `heuristic` (route.ts line 144):
`d.note?.trim() ? d.note.slice(0, 80) : d.title`. -/
def heuristicSummary (d : Draft) : String :=
  match d.note with
  | some n => if jsTrim n ≠ "" then jsTake n 80 else d.title
  | none => d.title

/-- The `{...h, model, fallback, error}` spread the handler performs on
each fallback path, or the exception `heuristic()` threw. -/
def heuristicResult (d : Draft) (label : String) (err : Option String) :
    Except String TagResult :=
  match heuristicTags d with
  | Except.error e => Except.error e
  | Except.ok tags =>
    Except.ok
      { tags := tags
        summary := heuristicSummary d
        confidence := ⟨6, -1⟩
        model := label
        fallback := true
        error := err
        raw := none }

/-- A heuristic response as the handler's caller sees it.  On the
`force`, `no-key` and `bad-key` paths `heuristic()` runs outside the
`try` block (route.ts lines 201–231), so its `TypeError` propagates
directly.  On the exhausted-loop path it runs inside the `try`
(line 378): the catch at line 383 then calls `heuristic()` a second
time, which throws the same `TypeError` again, and that second throw
propagates.  Either way a throwing heuristic escapes the handler. -/
def heuristicRoute (d : Draft) (label : String) (err : Option String) :
    RouteResult :=
  match heuristicResult d label err with
  | Except.ok r => RouteResult.ok r
  | Except.error e => RouteResult.thrown e

/-- Source function `extractJsonObject` (route.ts lines 72–80) matches
`text` against the greedy regex whose pattern is: an opening brace, any
characters, a closing brace.  The match, when it exists, runs from the
first opening brace to the last closing brace of the whole text; the
matched slice is then handed to `JSON.parse`, with `null` on failure.
`jsBraceMatch` is the regex-match half. -/
def jsBraceMatch (text : String) : Option String :=
  let cs := text.data
  let openIdx := cs.findIdx (fun c => c.toNat = 123)
  let closeIdx := cs.length - 1 - (cs.reverse.findIdx (fun c => c.toNat = 125))
  if (cs.any (fun c => c.toNat = 123)) ∧ (cs.any (fun c => c.toNat = 125)) ∧
      openIdx < closeIdx then
    some (String.mk ((cs.drop openIdx).take (closeIdx - openIdx + 1)))
  else none

def extractJsonObject (text : String) : Option Json :=
  (jsBraceMatch text).bind jsonParse

/-- The parse step shared by both transport paths (route.ts lines
279–284 and 347–352): `JSON.parse(text)`, falling back to
`extractJsonObject(text)` when it throws. -/
def aiObjOfText (text : String) : Option Json :=
  match jsonParse text with
  | some o => some o
  | none => extractJsonObject text

/-- The model-supplied tags of a response text (route.ts line 286):
`isStringArray(obj?.tags)` keeps the array only when every element is a
string. -/
def aiTagsOfText (text : String) : List String :=
  match jsField (aiObjOfText text) "tags" with
  | some (Json.arr l) =>
    if l.all Json.isStr then l.filterMap Json.asStr else []
  | _ => []

/-- The `summary` selection on the model paths (route.ts lines
287–290): the model summary when it is a string whose trim is truthy,
else the draft title. -/
def summaryOfText (text : String) (title : String) : String :=
  match jsField (aiObjOfText text) "summary" with
  | some (Json.str s) => if jsTrim s ≠ "" then s else title
  | _ => title

/-- The `confidence` selection on the model paths (route.ts lines
291–292): the model value when numeric, else 0.7. -/
def confidenceOfText (text : String) : JsNum :=
  match jsField (aiObjOfText text) "confidence" with
  | some (Json.num q) => q
  | _ => ⟨7, -1⟩

/-- The merge of a response text through the enrichment engine
(route.ts lines 294–295 and 362–363).  It runs inside the per-path
`try`, so its synonym-pass `TypeError` is caught by that path's
`catch`, recorded in `lastErr`, and the loop moves on. -/
def mergeOf (d : Draft) (text : String) : Except String (List String) :=
  ensureMinTags (aiTagsOfText text) ⟨baseOf d, d.url⟩ 6 10

/-- The 200 response a successful model attempt produces (route.ts
lines 286–302 and 354–370), for the final response text `text`, the
`model` label (`m` on the SDK path, `rest:m` on the HTTP path) and the
already-computed merge `merged = mergeOf d text` (the attempt only
succeeds when that merge did not throw). -/
def buildModelResponse (d : Draft) (trace : Bool) (label text : String)
    (merged : List String) : TagResult :=
  { tags := merged
    summary := summaryOfText text d.title
    confidence := confidenceOfText text
    model := label
    fallback := decide ((aiTagsOfText text).length < 1)
    error := none
    raw := if trace then some text else none }

/-! ## `src/app/api/ai-tag/route.ts` — the model/transport loop

The two remote transports are external collaborators.  Their behaviour
for one candidate model is an `Attempt`: what the SDK call produced and
what the raw HTTP call produced.  Thrown errors are modelled by their
message strings (`errorMessage` applied to an `Error` yields its
message, and the route only ever stringifies them). -/

/-- Outcome of the SDK path for one model: the response text of
`result.response.text()`, or a thrown error. -/
inductive SdkOutcome where
  | ok (text : String) : SdkOutcome
  | exn (e : String) : SdkOutcome
deriving DecidableEq

/-- Outcome of the raw-HTTP path for one model: a non-ok status, an ok
response body, or a thrown error (network failure). -/
inductive RestOutcome where
  | httpErr (status : Nat) : RestOutcome
  | ok (body : String) : RestOutcome
  | exn (e : String) : RestOutcome
deriving DecidableEq

structure Attempt where
  sdk : SdkOutcome
  rest : RestOutcome
deriving DecidableEq

/-- The environment the handler reads: `GEMINI_API_KEY` and
`GEMINI_MODEL`. -/
structure Env where
  geminiApiKey : Option String := none
  geminiModel : Option String := none

/-- The key format check (route.ts lines 211–212):
`/^AIza[0-9A-Za-z_\-]{20,}$/`. -/
def looksLikeGoogleKey (k : String) : Bool :=
  match k.data with
  | 'A' :: 'I' :: 'z' :: 'a' :: rest =>
    20 ≤ rest.length &&
      rest.all (fun c => isAsciiAlphaNum c || c = '_' || c = '-')
  | _ => false

/-- The candidate model list (route.ts lines 235–241):
`[GEMINI_MODEL, "gemini-1.5-flash", "gemini-2.0-flash"]`, keeping
non-empty strings, de-duplicated preserving first occurrence. -/
def modelList (env : Env) : List String :=
  let cand := (match env.geminiModel with
    | some s => [s]
    | none => []) ++ ["gemini-1.5-flash", "gemini-2.0-flash"]
  (cand.filter (fun m => m ≠ "")).foldl olInsert []

/-- Extraction of the response text from a REST body (route.ts lines
329–345).  `Except.error` is a thrown exception inside the REST `try`
block: `resp.json()` rejecting on a non-JSON body, or the `TypeError`
raised by reading `.content` of a null first candidate (`typeof null`
is `"object"`). -/
def restExtractText (body : String) : Except String String :=
  match jsonParse body with
  | none => Except.error "invalid json"
  | some j =>
    let candidates :=
      match j with
      | Json.obj fs =>
        match objGet fs "candidates" with
        | some (Json.arr l) => l
        | _ => []
      | _ => []
    let contentE : Except String (Option Json) :=
      match candidates.head? with
      | some c =>
        match c with
        | Json.null => Except.error "TypeError"
        | Json.obj fs => Except.ok (objGet fs "content")
        | Json.arr _ => Except.ok none
        | _ => Except.ok none
      | none => Except.ok none
    match contentE with
    | Except.error e => Except.error e
    | Except.ok content =>
      let parts :=
        match content with
        | some (Json.obj fs) =>
          match objGet fs "parts" with
          | some (Json.arr l) => l
          | _ => []
        | _ => []
      let part0 := parts.head?
      let t1 : Option Json :=
        match part0 with
        | some (Json.obj fs) => objGet fs "text"
        | _ => none
      let t2 : Option Json :=
        match part0 with
        | some (Json.obj fs) =>
          match objGet fs "inlineData" with
          | some (Json.obj fs2) => objGet fs2 "data"
          | _ => none
        | _ => none
      let nonNullish : Option Json → Option Json := fun v =>
        match v with
        | some Json.null => none
        | x => x
      let textRaw : Json :=
        match nonNullish t1 with
        | some v => v
        | none =>
          match nonNullish t2 with
          | some v => v
          | none => Json.str "\x7b\x7d"
      match textRaw with
      | Json.str s => Except.ok s
      | _ => Except.ok "\x7b\x7d"

/-- The REST half of one loop iteration (route.ts lines 308–374) for
candidate `m`: the winning `(label, text, merged)` triple, or the error
that the REST `catch` records in `lastErr` before the loop moves on —
a non-ok status (`REST <m> HTTP <status>`), a network throw, a
text-extraction throw, or the merge's own `TypeError` (the merge runs
inside this `try` block too, route.ts line 363). -/
def restAttempt (d : Draft) (att : String → Attempt) (m : String) :
    Except String (String × String × List String) :=
  match (att m).rest with
  | RestOutcome.httpErr status =>
    Except.error ("REST " ++ m ++ " HTTP " ++ toString status)
  | RestOutcome.exn e => Except.error e
  | RestOutcome.ok body =>
    match restExtractText body with
    | Except.error e => Except.error e
    | Except.ok text =>
      match mergeOf d text with
      | Except.ok merged => Except.ok ("rest:" ++ m, text, merged)
      | Except.error e => Except.error e

/-- One pass of the `for (const m of models)` loop (route.ts lines
266–375), reduced to its decision content: which (label, final response
text, merged tags) triple wins, if any, and the `lastErr` on
exhaustion.  The SDK path applies the `|| "\x7b\x7d"` default to a falsy
response text and then merges inside its own `try` (route.ts line 295):
when the merge throws, the error is recorded and the REST path of the
same candidate runs, exactly as when the SDK call itself threw.  An
attempt therefore only wins when its text was obtained and its merge
returned. -/
def firstSuccess (d : Draft) (att : String → Attempt) :
    List String → Option String →
      Option (String × String × List String) × Option String
  | [], lastErr => (none, lastErr)
  | m :: restModels, lastErr =>
    match (att m).sdk with
    | SdkOutcome.ok text0 =>
      let text := if text0 = "" then "\x7b\x7d" else text0
      match mergeOf d text with
      | Except.ok merged => (some (m, text, merged), lastErr)
      | Except.error e =>
        match restAttempt d att m with
        | Except.ok win => (some win, some e)
        | Except.error e2 => firstSuccess d att restModels (some e2)
    | SdkOutcome.exn e =>
      match restAttempt d att m with
      | Except.ok win => (some win, some e)
      | Except.error e2 => firstSuccess d att restModels (some e2)

/-- Source function `errorMessage` (route.ts lines 149–157) applied to
`lastErr`.  Thrown values are modelled as message strings, and
`JSON.stringify(null)` is `"null"`. -/
def errorMessage : Option String → String
  | some s => s
  | none => "null"

/-- The winning (label, text, merged) triple of a run of the handler,
`none` on every heuristic path.  This is the specification-side
observer used to state which tags "the model supplied". -/
def runWinner (d : Draft) (force : Bool) (env : Env)
    (att : String → Attempt) : Option (String × String × List String) :=
  if force then none
  else
    match env.geminiApiKey with
    | none => none
    | some key =>
      if looksLikeGoogleKey key = false then none
      else (firstSuccess d att (modelList env) none).1

/-- The usable model-supplied tags of a run: the parsed all-string tags
array of the winning response text, `[]` when no attempt won. -/
def modelTagsOfRun (d : Draft) (force : Bool) (env : Env)
    (att : String → Attempt) : List String :=
  match runWinner d force env att with
  | some (_, text, _) => aiTagsOfText text
  | none => []

/-- The model phase of the handler: iterate the candidates, and on
exhaustion return the heuristic 200 with `model="heuristic:fallback"`
and the stringified last failure (route.ts lines 264–382); when that
heuristic itself throws, the catch at line 383 calls `heuristic()`
again, whose second throw escapes the handler (`heuristicRoute`). -/
def modelPhase (d : Draft) (trace : Bool) (env : Env)
    (att : String → Attempt) : RouteResult :=
  match firstSuccess d att (modelList env) none with
  | (some (label, text, merged), _) =>
    RouteResult.ok (buildModelResponse d trace label text merged)
  | (none, lastErr) =>
    heuristicRoute d "heuristic:fallback" (some (errorMessage lastErr))

/-- The `POST` handler (route.ts lines 170–391) after body decoding:
`isDraft` has accepted the body (claims about invalid bodies are out of
scope), `trace`/`force` are the query flags, `env` the process
environment and `att` the behaviour of the remote collaborators.  The
only modelled step that can throw without being caught is
`heuristic()` (see `heuristicRoute`), so the `heuristic:error` body of
the top-level catch is never built: a throwing heuristic reaches that
catch only from line 378, and the catch's own `heuristic()` call then
throws again and propagates (`RouteResult.thrown`). -/
def POST (d : Draft) (trace force : Bool) (env : Env)
    (att : String → Attempt) : RouteResult :=
  let titleLen := (jsTrim d.title).length
  let noteLen := (jsTrim (d.note.getD "")).length
  if titleLen + noteLen < 3 then RouteResult.clientError 400 "text too short"
  else if 2000 < titleLen ∨ 8000 < noteLen then
    RouteResult.clientError 413 "input too large"
  else if force then heuristicRoute d "heuristic:force" none
  else
    match env.geminiApiKey with
    | none =>
      heuristicRoute d "heuristic:no-key" (some "GEMINI_API_KEY が未設定です。")
    | some key =>
      if looksLikeGoogleKey key = false then
        heuristicRoute d "heuristic:bad-key"
          (some "GEMINI_API_KEY が Google 形式ではありません。`AIza...` で始まるキーを設定してください。")
      else modelPhase d trace env att

/-! ## `src/app/api/aiTag.ts` — the client-side tag gate

The gate is the part of `aiTag` that runs after a 200 response body has
been parsed (aiTag.ts lines 118–138): the `data` object in scope there
is an arbitrary decoded JSON object, so it is modelled as the runtime
values (or absence) of the five fields the gate reads.  `Except.error`
is the thrown `Error`, carrying its message string. -/

/-- The decoded response body as the gate sees it: each field is the
JSON value found at that key, or `none` when absent. -/
structure AiTagResponse where
  tags : Option Json := none
  fallback : Option Json := none
  model : Option Json := none
  error : Option Json := none
  raw : Option Json := none

/-- Source function `safeString` (aiTag.ts lines 47–54). -/
def safeString (v : Json) : String :=
  match v with
  | Json.str s => s
  | _ => jsonStringify v

/-- Source function `trimPreview` (aiTag.ts lines 56–57). -/
def trimPreview (s : String) (max : Nat := 400) : String :=
  if max < s.data.length then jsTake s max ++ " …(truncated)" else s

/-- The `rawHint` fragment both gate errors append
(aiTag.ts lines 121–122 and 130–131): present when `trace` was set and
the body carried a `raw` field. -/
def rawHint (data : AiTagResponse) (trace : Bool) : String :=
  match trace, data.raw with
  | true, some v => " / raw=" ++ trimPreview (safeString v) 600
  | _, _ => ""

/-- The message of the empty-tags rejection (aiTag.ts line 123). -/
def emptyTagsMessage (data : AiTagResponse) (trace : Bool) : String :=
  "AIタグが生成されませんでした（tags: []）" ++ rawHint data trace

/-- The message of the fallback rejection (aiTag.ts lines 128–134). -/
def fallbackRejectedMessage (data : AiTagResponse) (trace : Bool) : String :=
  let m :=
    match data.model with
    | some v => if truthy v then jsToString v else "unknown"
    | none => "unknown"
  let err :=
    match data.error with
    | some v => if truthy v then " / error=" ++ jsToString v else ""
    | none => ""
  "AI生成に失敗しヒューリスティックにフォールバックしました（model=" ++ m ++ "）。" ++
    err ++ rawHint data trace

/-- The gate itself (aiTag.ts lines 118–138): reject when `data.tags`
is not a non-empty array (`!Array.isArray(data.tags) ||
data.tags.length === 0`), then reject a truthy `data.fallback` unless
`allowFallback`, else return `data` unchanged. -/
def aiTagGate (data : AiTagResponse) (allowFallback trace : Bool) :
    Except String AiTagResponse :=
  match data.tags with
  | some (Json.arr l) =>
    if l.length = 0 then Except.error (emptyTagsMessage data trace)
    else if !allowFallback && truthyOpt data.fallback then
      Except.error (fallbackRejectedMessage data trace)
    else Except.ok data
  | _ => Except.error (emptyTagsMessage data trace)

/-! ## Specification-side definitions and concrete test vectors -/

/-- Modelled from the spec: the spec's description of `extractJsonObject`
says "extract the first balanced `\x7b...\x7d` substring".  This is that
description as a definition — a bracket-matching scan from the first
opening brace to the point where its depth returns to zero — to be
compared with the source's greedy-regex behaviour (`jsBraceMatch`). -/
def firstBalancedBraceAux (depth : Nat) (acc : List Char) :
    List Char → Option String
  | [] => none
  | c :: rest =>
    if c.toNat = 123 then firstBalancedBraceAux (depth + 1) (c :: acc) rest
    else if c.toNat = 125 then
      if depth = 1 then some (String.mk (c :: acc).reverse)
      else firstBalancedBraceAux (depth - 1) (c :: acc) rest
    else firstBalancedBraceAux depth (c :: acc) rest

def firstBalancedBrace (s : String) : Option String :=
  match s.data.dropWhile (fun c => c.toNat ≠ 123) with
  | [] => none
  | cs => firstBalancedBraceAux 0 [] cs

/-- Modelled from the spec: "extract the first balanced `\x7b...\x7d`
substring and parse that". -/
def specExtractJsonObject (s : String) : Option Json :=
  (firstBalancedBrace s).bind jsonParse

/-- A valid draft with a three-character title (used as a neutral draft
in concrete runs). -/
def draftAbc : Draft := ⟨"abc", "memo", none, none, none⟩

/-- A draft with a short title and a non-blank note (exercises the
heuristic summary selection). -/
def draftNote : Draft := ⟨"t", "memo", none, none, some "hello"⟩

/-- An environment holding a well-formed Google-style key. -/
def envOk : Env := ⟨some "AIzaABCDEFGHIJKLMNOPQRST", none⟩

/-- A model response whose `tags` array mixes a string and a number:
not an all-string array, hence unusable wholesale. -/
def textMixedTags : String := "\x7b\"tags\":[\"a\",3]\x7d"

/-- A model response with one usable string tag. -/
def textOneTag : String := "\x7b\"tags\":[\"x\"]\x7d"

/-- A model response with a usable tag and a non-blank summary. -/
def textTagAndSummary : String :=
  "\x7b\"tags\":[\"y\"],\"summary\":\"概要\"\x7d"

/-- A response text whose greedy first-to-last-brace slice is not valid
JSON although its first balanced brace group is. -/
def textTrailingBrace : String := "x\x7b\"a\":1\x7d \x7d"

/-- Collaborator behaviours for concrete runs. -/
def attMixed : String → Attempt :=
  fun _ => ⟨SdkOutcome.ok textMixedTags, RestOutcome.exn "unused"⟩

def attOneTag : String → Attempt :=
  fun _ => ⟨SdkOutcome.ok textOneTag, RestOutcome.exn "unused"⟩

def attSummary : String → Attempt :=
  fun _ => ⟨SdkOutcome.ok textTagAndSummary, RestOutcome.exn "unused"⟩

def attAllFail : String → Attempt :=
  fun _ => ⟨SdkOutcome.exn "sdk down", RestOutcome.exn "network down"⟩

/-- A decoded gate body with no `tags` field at all. -/
def dataNoTags : AiTagResponse := ⟨none, some (Json.bool true), none, none, none⟩

/-- A decoded gate body with an empty `tags` array and `fallback:
true`. -/
def dataEmptyTagsFallback : AiTagResponse :=
  ⟨some (Json.arr []), some (Json.bool true), none, none, none⟩

/-- A decoded gate body with one tag and `fallback: true`. -/
def dataOneTagFallback : AiTagResponse :=
  ⟨some (Json.arr [Json.str "x"]), some (Json.bool true), none, none, none⟩

/-- A draft whose URL host label `constructor` is an `Object.prototype`
key: `addFromUrl` inserts that label, so the heuristic merge throws in
the synonym pass. -/
def draftProtoUrl : Draft :=
  ⟨"abc", "memo", some "http://constructor.com/", none, none⟩

/-- The heuristic 200 body for `draftAbc` on the exhausted-loop path
with last failure "network down". -/
def resultC5 : TagResult :=
  { tags := ["abc", "お金", "購入", "アカウント", "タスク", "サブスク"]
    summary := "abc"
    confidence := ⟨6, -1⟩
    model := "heuristic:fallback"
    fallback := true
    error := some "network down"
    raw := none }

/-! ## Ordered-set lemmas

Every phase of the engine only appends to the insertion-ordered set:
`grows s s'` states that `s'` extends `s` on the right.  Together with
duplicate-freedom this drives all the engine theorems. -/

def grows (s s' : List String) : Prop :=
  ∃ t, s' = s ++ t

lemma grows_refl (s : List String) : grows s s := ⟨[], by simp⟩

lemma grows_trans {a b c : List String} (h1 : grows a b) (h2 : grows b c) :
    grows a c := by
  obtain ⟨t1, rfl⟩ := h1
  obtain ⟨t2, rfl⟩ := h2
  exact ⟨t1 ++ t2, by simp⟩

lemma mem_of_grows {s s' : List String} {a : String} (h : grows s s')
    (ha : a ∈ s) : a ∈ s' := by
  obtain ⟨t, rfl⟩ := h
  exact List.mem_append_left _ ha

lemma grows_olInsert (s : List String) (x : String) : grows s (olInsert s x) := by
  unfold olInsert
  split
  · exact grows_refl s
  · exact ⟨[x], rfl⟩

lemma olInsert_nodup {s : List String} (h : s.Nodup) (x : String) :
    (olInsert s x).Nodup := by
  unfold olInsert
  split
  · exact h
  · simp [List.nodup_append, h]
    intro hx
    simp_all

lemma mem_olInsert_self (s : List String) (x : String) : x ∈ olInsert s x := by
  unfold olInsert
  split
  · assumption
  · simp

lemma grows_foldl {β : Type} {f : List String → β → List String}
    (hf : ∀ s b, grows s (f s b)) :
    ∀ (l : List β) (s : List String), grows s (List.foldl f s l) := by
  intro l
  induction l with
  | nil => intro s; exact grows_refl s
  | cons b t ih =>
    intro s
    exact grows_trans (hf s b) (ih (f s b))

lemma nodup_foldl {β : Type} {f : List String → β → List String}
    (hf : ∀ s b, s.Nodup → (f s b).Nodup) :
    ∀ (l : List β) (s : List String), s.Nodup → (List.foldl f s l).Nodup := by
  intro l
  induction l with
  | nil => intro s hs; exact hs
  | cons b t ih =>
    intro s hs
    exact ih (f s b) (hf s b hs)

lemma grows_addAll (s l : List String) : grows s (addAll s l) :=
  grows_foldl grows_olInsert l s

lemma addAll_nodup {s : List String} (h : s.Nodup) (l : List String) :
    (addAll s l).Nodup :=
  nodup_foldl (fun _ x hs => olInsert_nodup hs x) l s h

lemma mem_addAll_of_mem {l : List String} {b : String} (hb : b ∈ l)
    (s : List String) : b ∈ addAll s l := by
  induction l generalizing s with
  | nil => cases hb
  | cons a t ih =>
    rcases List.mem_cons.mp hb with rfl | hbt
    · exact mem_of_grows (grows_foldl grows_olInsert t _)
        (mem_olInsert_self s b)
    · exact ih hbt (olInsert s a)

lemma foldl_olInsert_of_nodup :
    ∀ (l s : List String), l.Nodup → (∀ x ∈ l, x ∉ s) →
      List.foldl olInsert s l = s ++ l := by
  intro l
  induction l with
  | nil => intro s _ _; simp
  | cons a t ih =>
    intro s hnd hdisj
    have ha : a ∉ s := hdisj a (by simp)
    have step : olInsert s a = s ++ [a] := by
      unfold olInsert
      simp [ha]
    rw [List.foldl_cons, step, ih (s ++ [a]) (List.Nodup.of_cons hnd)]
    · simp
    · intro x hx
      simp only [List.mem_append, List.mem_singleton]
      push_neg
      refine ⟨hdisj x (by simp [hx]), ?_⟩
      rintro rfl
      exact (List.nodup_cons.mp hnd).1 hx

/-! ## Engine phase lemmas -/

lemma grows_condAddAll {β : Type} (cond : β → Bool) (proj : β → List String) :
    ∀ (s : List String) (b : β),
      grows s (if cond b then addAll s (proj b) else s) := by
  intro s b
  split
  · exact grows_addAll s (proj b)
  · exact grows_refl s

lemma nodup_condAddAll {β : Type} (cond : β → Bool) (proj : β → List String) :
    ∀ (s : List String) (b : β), s.Nodup →
      (if cond b then addAll s (proj b) else s).Nodup := by
  intro s b hs
  split
  · exact addAll_nodup hs (proj b)
  · exact hs

lemma grows_condOlInsert (c : Prop) [Decidable c] (s : List String) (x : String) :
    grows s (if c then olInsert s x else s) := by
  split
  · exact grows_olInsert s x
  · exact grows_refl s

lemma nodup_condOlInsert (c : Prop) [Decidable c] {s : List String}
    (hs : s.Nodup) (x : String) : (if c then olInsert s x else s).Nodup := by
  split
  · exact olInsert_nodup hs x
  · exact hs

lemma grows_addFromUrl (url : Option String) (s : List String) :
    grows s (addFromUrl url s) := by
  unfold addFromUrl
  split
  · exact grows_refl s
  · split
    · exact grows_refl s
    · split
      · exact grows_refl s
      · rename_i host heq
        dsimp only
        refine grows_trans ?_ (grows_foldl (fun s kv =>
          grows_condAddAll (fun kv => substrB kv.1 (jsLower host))
            (fun kv => kv.2) s kv) BRAND_TAGS _)
        refine grows_trans ?_ (grows_condOlInsert _ _ _)
        exact grows_olInsert _ _

lemma nodup_addFromUrl (url : Option String) {s : List String} (hs : s.Nodup) :
    (addFromUrl url s).Nodup := by
  unfold addFromUrl
  split
  · exact hs
  · split
    · exact hs
    · split
      · exact hs
      · rename_i host heq
        dsimp only
        refine nodup_foldl (fun s kv hnd =>
          nodup_condAddAll (fun kv => substrB kv.1 (jsLower host))
            (fun kv => kv.2) s kv hnd) BRAND_TAGS _ ?_
        exact nodup_condOlInsert _ (olInsert_nodup hs _) _

lemma grows_addLooseKeywords (base : String) (s : List String) :
    grows s (addLooseKeywords base s) := by
  unfold addLooseKeywords
  dsimp only
  refine grows_trans ?_
    (grows_foldl (fun s t => grows_olInsert s (jsLower t)) _ _)
  refine grows_trans ?_ (grows_foldl grows_olInsert _ _)
  refine grows_trans ?_ (grows_condOlInsert _ _ _)
  refine grows_trans ?_ (grows_condOlInsert _ _ _)
  exact grows_condOlInsert _ _ _

lemma nodup_addLooseKeywords (base : String) {s : List String} (hs : s.Nodup) :
    (addLooseKeywords base s).Nodup := by
  unfold addLooseKeywords
  dsimp only
  refine nodup_foldl (fun s t hnd => olInsert_nodup hnd (jsLower t)) _ _ ?_
  refine nodup_foldl (fun s t hnd => olInsert_nodup hnd t) _ _ ?_
  exact nodup_condOlInsert _ (nodup_condOlInsert _ (nodup_condOlInsert _ hs _) _) _

/-- A returning step of the synonym fold preserves growth and
duplicate-freedom of the accumulated set. -/
lemma synStep_ok {u v : List String} {t : String}
    (h : synStep (Except.ok u) t = Except.ok v) :
    grows u v ∧ (u.Nodup → v.Nodup) := by
  unfold synStep at h
  dsimp only at h
  split at h
  · cases h
    exact ⟨grows_addAll _ _, fun hnd => addAll_nodup hnd _⟩
  · split at h
    · exact Except.noConfusion h
    · cases h
      exact ⟨grows_refl _, fun hnd => hnd⟩

/-- Once the synonym fold has thrown, it stays thrown. -/
lemma foldl_synStep_error (e : String) :
    ∀ l : List String, l.foldl synStep (Except.error e) = Except.error e := by
  intro l
  induction l with
  | nil => rfl
  | cons t rest ih =>
    rw [List.foldl_cons]
    rw [show synStep (Except.error e) t = Except.error e from rfl]
    exact ih

lemma foldl_synStep_ok :
    ∀ (l u v : List String),
      l.foldl synStep (Except.ok u) = Except.ok v →
      grows u v ∧ (u.Nodup → v.Nodup) := by
  intro l
  induction l with
  | nil =>
    intro u v h
    cases h
    exact ⟨grows_refl _, fun hnd => hnd⟩
  | cons t rest ih =>
    intro u v h
    rw [List.foldl_cons] at h
    cases hs : synStep (Except.ok u) t with
    | error e =>
      rw [hs, foldl_synStep_error] at h
      exact Except.noConfusion h
    | ok w =>
      rw [hs] at h
      obtain ⟨hg, hnd⟩ := synStep_ok hs
      obtain ⟨hg2, hnd2⟩ := ih w v h
      exact ⟨grows_trans hg hg2, fun h0 => hnd2 (hnd h0)⟩

/-- A synonym pass that returns only appends to the snapshot it
iterated, and keeps it duplicate-free. -/
lemma synExpandPass_ok {s v : List String}
    (h : synExpandPass s = Except.ok v) :
    grows s v ∧ (s.Nodup → v.Nodup) :=
  foldl_synStep_ok s s v h

lemma grows_padFixed (min : Nat) :
    ∀ (l s : List String), grows s (padFixed min s l) := by
  intro l
  induction l with
  | nil => intro s; exact grows_refl s
  | cons c t ih =>
    intro s
    unfold padFixed
    split
    · exact grows_trans (grows_olInsert s c) (ih (olInsert s c))
    · exact grows_refl s

lemma nodup_padFixed (min : Nat) :
    ∀ (l s : List String), s.Nodup → (padFixed min s l).Nodup := by
  intro l
  induction l with
  | nil => intro s hs; exact hs
  | cons c t ih =>
    intro s hs
    unfold padFixed
    split
    · exact ih (olInsert s c) (olInsert_nodup hs c)
    · exact hs

lemma mem_padFixed_of_mem (min : Nat) :
    ∀ (l s : List String) (x : String), x ∈ s → x ∈ padFixed min s l := by
  intro l s x hx
  exact mem_of_grows (grows_padFixed min l s) hx

/-- The padding loop either reaches the floor or has consumed (hence
inserted) the whole vocabulary. -/
lemma padFixed_min_or_subset (min : Nat) :
    ∀ (l s : List String),
      min ≤ (padFixed min s l).length ∨ ∀ x ∈ l, x ∈ padFixed min s l := by
  intro l
  induction l with
  | nil =>
    intro s
    right
    intro x hx
    cases hx
  | cons c t ih =>
    intro s
    unfold padFixed
    split
    · rcases ih (olInsert s c) with h | h
      · exact Or.inl h
      · right
        intro x hx
        rcases List.mem_cons.mp hx with rfl | hxt
        · exact mem_padFixed_of_mem min t (olInsert s x)
            x (mem_olInsert_self s x)
        · exact h x hxt
    · omega

lemma le_length_of_nodup_subset {l R : List String} (hl : l.Nodup)
    (h : ∀ x ∈ l, x ∈ R) : l.length ≤ R.length := by
  calc l.length = l.toFinset.card := (List.toFinset_card_of_nodup hl).symm
    _ ≤ R.toFinset.card := by
        apply Finset.card_le_card
        intro x hx
        rw [List.mem_toFinset] at hx ⊢
        exact h x hx
    _ ≤ R.length := R.toFinset_card_le

lemma FIXED_nodup : FIXED.Nodup := by decide

lemma grows_seed_ensureMinPre (seed : List String) (ctx : Ctx) :
    grows ((seed.filter (fun t => t ≠ "")).foldl olInsert [])
      (ensureMinPre seed ctx) := by
  unfold ensureMinPre
  refine grows_trans (grows_foldl (fun s kv =>
    grows_condAddAll (fun kv => substrB kv.1 ctx.base) (fun kv => kv.2) s kv)
    BRAND_TAGS _) ?_
  refine grows_trans (grows_foldl (fun s rt =>
    grows_condAddAll (fun rt => reTestI rt.1 ctx.base) (fun rt => rt.2) s rt)
    KEYWORD_TAGS _) ?_
  refine grows_trans (grows_foldl (fun s rt =>
    grows_condAddAll (fun rt => reTestI rt.1 ctx.base) (fun rt => rt.2) s rt)
    GEO_TAGS _) ?_
  exact grows_addFromUrl ctx.url _

lemma ensureMinPre_nodup (seed : List String) (ctx : Ctx) :
    (ensureMinPre seed ctx).Nodup := by
  unfold ensureMinPre
  refine nodup_addFromUrl ctx.url ?_
  refine nodup_foldl (fun s rt hnd =>
    nodup_condAddAll (fun rt => reTestI rt.1 ctx.base) (fun rt => rt.2) s rt hnd)
    GEO_TAGS _ ?_
  refine nodup_foldl (fun s rt hnd =>
    nodup_condAddAll (fun rt => reTestI rt.1 ctx.base) (fun rt => rt.2) s rt hnd)
    KEYWORD_TAGS _ ?_
  refine nodup_foldl (fun s kv hnd =>
    nodup_condAddAll (fun kv => substrB kv.1 ctx.base) (fun kv => kv.2) s kv hnd)
    BRAND_TAGS _ ?_
  exact nodup_foldl (fun s x hnd => olInsert_nodup hnd x) _ _ List.nodup_nil

/-- After padding with floor 6, the set always holds at least 6 tags:
either the loop reached the floor, or all 27 pairwise-distinct `FIXED`
entries are members. -/
lemma padFixed_six_le (s : List String) : 6 ≤ (padFixed 6 s FIXED).length := by
  rcases padFixed_min_or_subset 6 FIXED s with h | h
  · exact h
  · have h27 : FIXED.length ≤ (padFixed 6 s FIXED).length :=
      le_length_of_nodup_subset FIXED_nodup h
    have hl : FIXED.length = 27 := by decide
    omega

/-- The spine of every success of `ensureMinTagsSet`: the synonym pass
returned some `s5`, and the result is the padded set over it. -/
lemma ensureMinTagsSet_ok_elim {seed : List String} {ctx : Ctx} {min : Nat}
    {s : List String} (h : ensureMinTagsSet seed ctx min = Except.ok s) :
    ∃ s5, synExpandPass (ensureMinPre seed ctx) = Except.ok s5 ∧
      s = padFixed min (addLooseKeywords ctx.base s5) FIXED := by
  unfold ensureMinTagsSet at h
  split at h
  · exact Except.noConfusion h
  · rename_i s5 heq
    cases h
    exact ⟨s5, heq, rfl⟩

lemma ensureMinTagsSet_ok_nodup {seed : List String} {ctx : Ctx} {min : Nat}
    {s : List String} (h : ensureMinTagsSet seed ctx min = Except.ok s) :
    s.Nodup := by
  obtain ⟨s5, hsyn, rfl⟩ := ensureMinTagsSet_ok_elim h
  have h5 : s5.Nodup := (synExpandPass_ok hsyn).2 (ensureMinPre_nodup seed ctx)
  exact nodup_padFixed min FIXED _ (nodup_addLooseKeywords ctx.base h5)

lemma ensureMinTagsSet_ok_six_le {seed : List String} {ctx : Ctx}
    {s : List String} (h : ensureMinTagsSet seed ctx 6 = Except.ok s) :
    6 ≤ s.length := by
  obtain ⟨s5, hsyn, rfl⟩ := ensureMinTagsSet_ok_elim h
  exact padFixed_six_le _

/-- Size bound of the engine on success: with floor 6 and cap 10 a
returned result always has between 6 and 10 tags. -/
lemma ensureMinTags_ok_len_bounds {seed : List String} {ctx : Ctx}
    {out : List String} (h : ensureMinTags seed ctx 6 10 = Except.ok out) :
    6 ≤ out.length ∧ out.length ≤ 10 := by
  unfold ensureMinTags at h
  split at h
  · exact Except.noConfusion h
  · rename_i s heq
    cases h
    have h6 := ensureMinTagsSet_ok_six_le heq
    simp only [List.length_take]
    omega

/-- A duplicate-free, empty-free seed survives the initial
`new Set(seed.filter(Boolean))` verbatim, and every later phase only
appends: a returned set extends the seed on the right. -/
lemma ensureMinTagsSet_ok_seed_extends {seed : List String} {ctx : Ctx}
    {s : List String} (hnd : seed.Nodup) (hne : ∀ t ∈ seed, t ≠ "")
    (h : ensureMinTagsSet seed ctx 6 = Except.ok s) :
    ∃ t, s = seed ++ t := by
  obtain ⟨s5, hsyn, rfl⟩ := ensureMinTagsSet_ok_elim h
  have hfilter : seed.filter (fun t => t ≠ "") = seed := by
    rw [List.filter_eq_self]
    intro a ha
    simpa using hne a ha
  have h0 : (seed.filter (fun t => t ≠ "")).foldl olInsert [] = seed := by
    rw [hfilter, foldl_olInsert_of_nodup seed [] hnd (by intro x _ h; cases h)]
    simp
  have hg : grows seed (ensureMinPre seed ctx) := by
    have hpre := grows_seed_ensureMinPre seed ctx
    rwa [h0] at hpre
  have h5 : grows seed s5 := grows_trans hg (synExpandPass_ok hsyn).1
  exact grows_trans h5 (grows_trans (grows_addLooseKeywords ctx.base s5)
    (grows_padFixed 6 FIXED _))

/-- Brand tags whose key matches inside `base` enter the fold over
`BRAND_TAGS`. -/
lemma mem_brandFold {base : String} :
    ∀ (l : List (String × List String)) (s : List String) {k : String}
      {tags : List String} {t : String},
      (k, tags) ∈ l → substrB k base = true → t ∈ tags →
      t ∈ l.foldl
        (fun s kv => if substrB kv.1 base then addAll s kv.2 else s) s := by
  intro l
  induction l with
  | nil =>
    intro s k tags t h _ _
    cases h
  | cons kv rest ih =>
    intro s k tags t hmem hsub ht
    rw [List.foldl_cons]
    rcases List.mem_cons.mp hmem with heq | hrest
    · have hstep : t ∈ (if substrB kv.1 base then addAll s kv.2 else s) := by
        rw [← heq]
        simp only [hsub, if_true]
        exact mem_addAll_of_mem ht s
      exact mem_of_grows (grows_foldl (fun s kv =>
        grows_condAddAll (fun kv => substrB kv.1 base) (fun kv => kv.2) s kv)
        rest _) hstep
    · exact ih _ hrest hsub ht

/-- Brand tags whose key occurs in `ctx.base` reach the set built up to
the synonym pass. -/
lemma mem_ensureMinPre_of_brand (seed : List String) (ctx : Ctx)
    (k : String) (tags : List String) (t : String)
    (hmem : (k, tags) ∈ BRAND_TAGS) (hsub : substrB k ctx.base = true)
    (ht : t ∈ tags) : t ∈ ensureMinPre seed ctx := by
  unfold ensureMinPre
  dsimp only
  refine mem_of_grows ?_
    (mem_brandFold BRAND_TAGS ((seed.filter (fun t => t ≠ "")).foldl olInsert [])
      hmem hsub ht)
  refine grows_trans ?_ (grows_addFromUrl _ _)
  refine grows_trans ?_ (grows_foldl (fun s rt =>
    grows_condAddAll (fun rt => reTestI rt.1 ctx.base) (fun rt => rt.2) s rt)
    GEO_TAGS _)
  exact grows_foldl (fun s rt =>
    grows_condAddAll (fun rt => reTestI rt.1 ctx.base) (fun rt => rt.2) s rt)
    KEYWORD_TAGS _

/-- Brand tags whose key occurs in `ctx.base` are members of every set
the engine returns. -/
lemma mem_ensureMinTagsSet_of_brand {seed : List String} {ctx : Ctx}
    {s : List String} (k : String) (tags : List String) (t : String)
    (hmem : (k, tags) ∈ BRAND_TAGS) (hsub : substrB k ctx.base = true)
    (ht : t ∈ tags) (h : ensureMinTagsSet seed ctx 6 = Except.ok s) :
    t ∈ s := by
  obtain ⟨s5, hsyn, rfl⟩ := ensureMinTagsSet_ok_elim h
  have h1 : t ∈ ensureMinPre seed ctx :=
    mem_ensureMinPre_of_brand seed ctx k tags t hmem hsub ht
  have h2 : t ∈ s5 := mem_of_grows (synExpandPass_ok hsyn).1 h1
  exact mem_of_grows (grows_trans (grows_addLooseKeywords ctx.base s5)
    (grows_padFixed 6 FIXED _)) h2

/-! ## Claim theorems about the enrichment engine -/

/-- C1 counterexample: with seed `["constructor"]` the synonym pass
reads `SYN_EXPAND["constructor"]`, which hits the inherited
`Object.prototype.constructor`, and `exp?.forEach(...)` throws a
`TypeError` — the engine produces no tag list at all instead of 6–10
tags, refuting the for-every-seed claim. -/
theorem C1_counterexample :
    ensureMinTags ["constructor"] ⟨"", none⟩ 6 10 =
      Except.error forEachTypeError := rfl

/-- C1 (amended): whenever `ensureMinTags` with `min = 6`, `max = 10`
returns a tag list at all — its synonym pass not having hit an
inherited `Object.prototype` key — that list has between 6 and 10 tags
inclusive; in particular, with empty normalized text, no URL and an
empty seed it does return, the padding over `FIXED` bringing the count
to 6. -/
theorem C1_amended_size_bounds (seed : List String) (ctx : Ctx)
    (out : List String) (h : ensureMinTags seed ctx 6 10 = Except.ok out) :
    6 ≤ out.length ∧ out.length ≤ 10 :=
  ensureMinTags_ok_len_bounds h

theorem C1_amended_witness :
    ensureMinTags [] ⟨"", none⟩ 6 10 =
      Except.ok ["お金", "購入", "アカウント", "タスク", "サブスク", "連絡"] ∧
    (6 ≤ (["お金", "購入", "アカウント", "タスク", "サブスク", "連絡"] :
        List String).length ∧
      (["お金", "購入", "アカウント", "タスク", "サブスク", "連絡"] :
        List String).length ≤ 10) :=
  ⟨rfl, C1_amended_size_bounds [] ⟨"", none⟩ _ rfl⟩

/-- C7 counterexample: the text "netflix" contains the brand key
`netflix`, whose tags include `サブスク`, yet with a seed of ten distinct
tags the engine returns (no prototype key is involved) a list truncated
to `max = 10` that omits `サブスク` — the claim's "for every seed"
fails. -/
theorem C7_counterexample :
    ("netflix", ["サブスク", "動画"]) ∈ BRAND_TAGS ∧
    substrB "netflix" "netflix" = true ∧
    ensureMinTags ["t1", "t2", "t3", "t4", "t5", "t6", "t7", "t8", "t9", "t10"]
        ⟨"netflix", none⟩ 6 10 =
      Except.ok ["t1", "t2", "t3", "t4", "t5", "t6", "t7", "t8", "t9", "t10"] ∧
    "サブスク" ∉
      (["t1", "t2", "t3", "t4", "t5", "t6", "t7", "t8", "t9", "t10"] :
        List String) :=
  ⟨by decide, by decide, rfl, by decide⟩

/-- C7 (amended): for every seed and every context whose text contains
a brand-map key, whenever the engine returns at all (its synonym pass
not having thrown), all of that brand's tags are in the set it built;
the returned list is that set truncated to 10, so the brand tags appear
in the output whenever the set does not exceed the cap. -/
theorem C7_amended_brand_tags (seed : List String) (ctx : Ctx)
    (k : String) (tags : List String) (t : String) (s : List String)
    (hmem : (k, tags) ∈ BRAND_TAGS) (hsub : substrB k ctx.base = true)
    (ht : t ∈ tags) (h : ensureMinTagsSet seed ctx 6 = Except.ok s) :
    t ∈ s ∧ ensureMinTags seed ctx 6 10 = Except.ok (s.take 10) ∧
      (s.length ≤ 10 → t ∈ s.take 10) := by
  have hm := mem_ensureMinTagsSet_of_brand k tags t hmem hsub ht h
  refine ⟨hm, ?_, fun hle => ?_⟩
  · unfold ensureMinTags
    rw [h]
  · rw [List.take_of_length_le hle]
    exact hm

theorem C7_amended_witness :
    (("netflix", ["サブスク", "動画"]) ∈ BRAND_TAGS ∧
      substrB "netflix" "netflix" = true ∧ "サブスク" ∈ ["サブスク", "動画"] ∧
      ensureMinTagsSet [] ⟨"netflix", none⟩ 6 =
        Except.ok ["サブスク", "動画", "定額", "月額", "定期", "映像", "VOD",
          "配信", "netflix"]) ∧
    ("サブスク" ∈ ["サブスク", "動画", "定額", "月額", "定期", "映像", "VOD",
        "配信", "netflix"] ∧
      ensureMinTags [] ⟨"netflix", none⟩ 6 10 =
        Except.ok (["サブスク", "動画", "定額", "月額", "定期", "映像", "VOD",
          "配信", "netflix"].take 10) ∧
      ((["サブスク", "動画", "定額", "月額", "定期", "映像", "VOD", "配信",
          "netflix"] : List String).length ≤ 10 →
        "サブスク" ∈ ["サブスク", "動画", "定額", "月額", "定期", "映像", "VOD",
          "配信", "netflix"].take 10)) :=
  ⟨⟨by decide, by decide, by decide, rfl⟩,
    C7_amended_brand_tags [] ⟨"netflix", none⟩ "netflix" ["サブスク", "動画"]
      "サブスク"
      ["サブスク", "動画", "定額", "月額", "定期", "映像", "VOD", "配信", "netflix"]
      (by decide) (by decide) (by decide) rfl⟩

/-- C10 counterexample: `["a", "toString"]` is a seed of two distinct
non-empty tags, yet the engine throws in the synonym pass
(`SYN_EXPAND["toString"]` hits `Object.prototype.toString`) and returns
no output at all, so no returned list contains or starts with the
seed. -/
theorem C10_counterexample :
    (["a", "toString"] : List String).Nodup ∧
    (∀ t ∈ (["a", "toString"] : List String), t ≠ "") ∧
    (["a", "toString"] : List String).length ≤ 10 ∧
    ensureMinTags ["a", "toString"] ⟨"", none⟩ 6 10 =
      Except.error forEachTypeError :=
  ⟨by decide, by decide, by decide, rfl⟩

/-- C10 (amended): for every seed of at most 10 distinct non-empty tags
and every context on which the engine returns a list (the synonym pass
not hitting an `Object.prototype` key), the output contains every seed
tag verbatim and starts with exactly the seed, in order, before any
engine-added tag — so seed tags are never displaced by the final
truncation to 10. -/
theorem C10_seed_tags_first (seed : List String) (ctx : Ctx)
    (out : List String)
    (hnd : seed.Nodup) (hne : ∀ t ∈ seed, t ≠ "") (hlen : seed.length ≤ 10)
    (h : ensureMinTags seed ctx 6 10 = Except.ok out) :
    (∃ rest, out = seed ++ rest) ∧ ∀ t ∈ seed, t ∈ out := by
  unfold ensureMinTags at h
  split at h
  · exact Except.noConfusion h
  · rename_i s heq
    cases h
    obtain ⟨t, rfl⟩ := ensureMinTagsSet_ok_seed_extends hnd hne heq
    have hr : (seed ++ t).take 10 = seed ++ t.take (10 - seed.length) := by
      rw [List.take_append_eq_append_take]
      congr 1
      exact List.take_of_length_le hlen
    rw [hr]
    exact ⟨⟨t.take (10 - seed.length), rfl⟩,
      fun x hx => List.mem_append_left _ hx⟩

theorem C10_witness :
    ((["a", "b"] : List String).Nodup ∧ (∀ t ∈ (["a", "b"] : List String), t ≠ "") ∧
      (["a", "b"] : List String).length ≤ 10 ∧
      ensureMinTags ["a", "b"] ⟨"", none⟩ 6 10 =
        Except.ok ["a", "b", "お金", "購入", "アカウント", "タスク"]) ∧
    ((∃ rest, ["a", "b", "お金", "購入", "アカウント", "タスク"] = ["a", "b"] ++ rest) ∧
      ∀ t ∈ (["a", "b"] : List String),
        t ∈ ["a", "b", "お金", "購入", "アカウント", "タスク"]) :=
  ⟨⟨by decide, by decide, by decide, rfl⟩,
    C10_seed_tags_first ["a", "b"] ⟨"", none⟩
      ["a", "b", "お金", "購入", "アカウント", "タスク"]
      (by decide) (by decide) (by decide) rfl⟩

/-! ## Handler case analysis -/

/-- A heuristic path that produced a 200 did so through a returning
`heuristicResult`. -/
lemma heuristicRoute_ok {d : Draft} {label : String} {err : Option String}
    {r : TagResult} (h : heuristicRoute d label err = RouteResult.ok r) :
    heuristicResult d label err = Except.ok r := by
  unfold heuristicRoute at h
  split at h
  · rename_i r0 heq
    cases h
    exact heq
  · exact RouteResult.noConfusion h

/-- The fields of a returning heuristic response. -/
lemma heuristicResult_ok_spec {d : Draft} {label : String}
    {err : Option String} {r : TagResult}
    (h : heuristicResult d label err = Except.ok r) :
    r.model = label ∧ r.fallback = true ∧ r.error = err ∧
      r.summary = heuristicSummary d ∧ heuristicTags d = Except.ok r.tags := by
  unfold heuristicResult at h
  split at h
  · exact Except.noConfusion h
  · rename_i tags heq
    cases h
    exact ⟨rfl, rfl, rfl, rfl, heq⟩

/-- Every 200 body the handler returns is either the merge of a winning
model attempt (text obtained and merge returned) or a returning
heuristic result. -/
lemma POST_ok_shape (d : Draft) (trace force : Bool) (env : Env)
    (att : String → Attempt) (r : TagResult)
    (h : POST d trace force env att = RouteResult.ok r) :
    (∃ label text merged,
        runWinner d force env att = some (label, text, merged) ∧
        r = buildModelResponse d trace label text merged) ∨
    (runWinner d force env att = none ∧
        ∃ label err, heuristicResult d label err = Except.ok r) := by
  unfold POST at h
  dsimp only at h
  split at h
  · exact RouteResult.noConfusion h
  · split at h
    · exact RouteResult.noConfusion h
    · split at h
      · rename_i hforce
        right
        refine ⟨?_, "heuristic:force", none, heuristicRoute_ok h⟩
        unfold runWinner
        rw [if_pos hforce]
      · rename_i hforce
        split at h
        · rename_i hkey
          right
          refine ⟨?_, "heuristic:no-key", some "GEMINI_API_KEY が未設定です。",
            heuristicRoute_ok h⟩
          unfold runWinner
          rw [if_neg hforce, hkey]
        · rename_i key hkey
          split at h
          · rename_i hfmt
            right
            refine ⟨?_, "heuristic:bad-key",
              some "GEMINI_API_KEY が Google 形式ではありません。`AIza...` で始まるキーを設定してください。",
              heuristicRoute_ok h⟩
            unfold runWinner
            rw [if_neg hforce, hkey]
            dsimp only
            rw [if_pos hfmt]
          · rename_i hfmt
            unfold modelPhase at h
            split at h
            · rename_i label text merged snd heq
              left
              refine ⟨label, text, merged, ?_, ?_⟩
              · unfold runWinner
                rw [if_neg hforce, hkey]
                dsimp only
                rw [if_neg hfmt, heq]
              · cases h
                rfl
            · rename_i lastErr heq
              right
              refine ⟨?_, "heuristic:fallback", some (errorMessage lastErr),
                heuristicRoute_ok h⟩
              unfold runWinner
              rw [if_neg hforce, hkey]
              dsimp only
              rw [if_neg hfmt, heq]

/-! ## Claim theorems about the handler and the gate -/

/-- C2 counterexample: the parsed model response
`\x7b"tags":["a",3]\x7d` supplies the string tag `"a"`, yet the handler
returns `fallback = true`, because `isStringArray` rejects the mixed
array wholesale — refuting "whenever a parsed model response supplies
one or more string tags, fallback is false". -/
theorem C2_counterexample :
    jsField (aiObjOfText textMixedTags) "tags" =
      some (Json.arr [Json.str "a", Json.num ⟨3, 0⟩]) ∧
    RouteResult.fallbackOf (POST draftAbc false false envOk attMixed) =
      some true :=
  ⟨rfl, rfl⟩

/-- C2 (amended): for every `TagResult` the handler returns,
`fallback = true` iff the run's winning model attempt supplied zero
usable tags.  Usable means the parsed `tags` field is an array
consisting entirely of strings, and an attempt only wins when its text
was obtained and its merge through the enrichment engine returned — a
throwing merge (for example a model tag that is an `Object.prototype`
key) records the error and falls through to the next path/candidate.
Whenever some attempt wins with a usable all-string array of at least
one element, `fallback = false`. -/
theorem C2_amended_fallback_iff (d : Draft) (trace force : Bool) (env : Env)
    (att : String → Attempt) (r : TagResult)
    (h : POST d trace force env att = RouteResult.ok r) :
    (r.fallback = true ↔ modelTagsOfRun d force env att = []) := by
  rcases POST_ok_shape d trace force env att r h with
    ⟨label, text, merged, hw, rfl⟩ | ⟨hw, label, err, hres⟩
  · unfold modelTagsOfRun
    rw [hw]
    unfold buildModelResponse
    dsimp only
    simp [Nat.lt_one_iff, List.length_eq_zero]
  · unfold modelTagsOfRun
    rw [hw]
    have hf := (heuristicResult_ok_spec hres).2.1
    simp [hf]

theorem C2_amended_witness :
    POST draftAbc false false envOk attOneTag =
      RouteResult.ok (buildModelResponse draftAbc false "gemini-1.5-flash"
        textOneTag ["x", "abc", "お金", "購入", "アカウント", "タスク"]) ∧
    ((buildModelResponse draftAbc false "gemini-1.5-flash" textOneTag
        ["x", "abc", "お金", "購入", "アカウント", "タスク"]).fallback = true ↔
      modelTagsOfRun draftAbc false envOk attOneTag = []) :=
  ⟨rfl, C2_amended_fallback_iff draftAbc false false envOk attOneTag _ rfl⟩

/-- C3: the gate fails with the `EmptyTags` error whenever the response
carries no `tags` field or an empty `tags` array, for every
`allowFallback` and `trace` — and the error produced is the empty-tags
one even when `fallback` would also be rejected, so an untagged result
is never returned. -/
theorem C3_empty_tags_rejected (data : AiTagResponse) (allowFallback trace : Bool)
    (h : data.tags = none ∨ data.tags = some (Json.arr [])) :
    aiTagGate data allowFallback trace =
      Except.error (emptyTagsMessage data trace) := by
  unfold aiTagGate
  rcases h with h | h
  · rw [h]
  · rw [h]
    rfl

theorem C3_witness :
    (dataNoTags.tags = none ∨ dataNoTags.tags = some (Json.arr [])) ∧
    aiTagGate dataNoTags false false =
      Except.error (emptyTagsMessage dataNoTags false) :=
  ⟨Or.inl rfl, C3_empty_tags_rejected dataNoTags false false (Or.inl rfl)⟩

/-- C4 counterexample: a result with empty `tags` and
`fallback === true`, gated with `allowFallback = false`, fails with the
`EmptyTags` error, not the `FallbackRejected` one — the claim's
"fails with FallbackRejected whenever result.fallback === true" does
not hold when the tags are also empty. -/
theorem C4_counterexample :
    dataEmptyTagsFallback.fallback = some (Json.bool true) ∧
    aiTagGate dataEmptyTagsFallback false false =
      Except.error (emptyTagsMessage dataEmptyTagsFallback false) ∧
    emptyTagsMessage dataEmptyTagsFallback false ≠
      fallbackRejectedMessage dataEmptyTagsFallback false :=
  ⟨rfl, rfl, by decide⟩

/-- C4 (amended): for every result whose `tags` is a non-empty array,
`accept(result, allowFallback = false)` fails with `FallbackRejected`
whenever `result.fallback === true`; `accept(result, allowFallback =
true)` never fails on that ground alone; and whenever `accept` does not
fail it returns the result unchanged. -/
theorem C4_amended_fallback_gate (data : AiTagResponse) (trace : Bool)
    (l : List Json) (htags : data.tags = some (Json.arr l)) (hne : l ≠ []) :
    ((data.fallback = some (Json.bool true) →
        aiTagGate data false trace =
          Except.error (fallbackRejectedMessage data trace)) ∧
      aiTagGate data true trace = Except.ok data ∧
      ∀ (allowFallback : Bool) (r : AiTagResponse),
        aiTagGate data allowFallback trace = Except.ok r → r = data) := by
  have hlen : ¬ l.length = 0 := by
    simpa [List.length_eq_zero] using hne
  refine ⟨?_, ?_, ?_⟩
  · intro hfb
    unfold aiTagGate
    rw [htags]
    dsimp only
    rw [if_neg hlen]
    simp [hfb, truthyOpt, truthy]
  · unfold aiTagGate
    rw [htags]
    dsimp only
    rw [if_neg hlen]
    simp
  · intro allowFallback r hr
    unfold aiTagGate at hr
    rw [htags] at hr
    dsimp only at hr
    rw [if_neg hlen] at hr
    split at hr
    · exact Except.noConfusion hr
    · cases hr
      rfl

theorem C4_amended_witness :
    (dataOneTagFallback.tags = some (Json.arr [Json.str "x"]) ∧
      [Json.str "x"] ≠ ([] : List Json)) ∧
    ((dataOneTagFallback.fallback = some (Json.bool true) →
        aiTagGate dataOneTagFallback false false =
          Except.error (fallbackRejectedMessage dataOneTagFallback false)) ∧
      aiTagGate dataOneTagFallback true false = Except.ok dataOneTagFallback ∧
      ∀ (allowFallback : Bool) (r : AiTagResponse),
        aiTagGate dataOneTagFallback allowFallback false = Except.ok r →
          r = dataOneTagFallback) :=
  ⟨⟨rfl, List.cons_ne_nil _ _⟩,
    C4_amended_fallback_gate dataOneTagFallback false [Json.str "x"] rfl
      (List.cons_ne_nil _ _)⟩

/-- C5 counterexample: with a draft whose URL host label is
`constructor` and every candidate failing on both transports, the
exhausted-loop `heuristic()` throws in the synonym pass (`addFromUrl`
inserted the label, `SYN_EXPAND["constructor"]` hits the prototype);
the catch at route.ts line 383 calls `heuristic()` again, which throws
again, and the exception propagates — the handler does not return a
`TagResult`. -/
theorem C5_counterexample :
    (firstSuccess draftProtoUrl attAllFail (modelList envOk) none).1 = none ∧
    POST draftProtoUrl false false envOk attAllFail =
      RouteResult.thrown forEachTypeError :=
  ⟨rfl, rfl⟩

/-- C5 (amended): when every model candidate fails on both transports
without a usable result (the loop exhausts) and the heuristic merge
itself returns (the draft URL contributing no `Object.prototype` key),
the handler returns a 200 `TagResult` with
`model = "heuristic:fallback"`, `fallback = true`, between 6 and 10
tags, and `error` the stringified last failure.  When the heuristic
merge throws instead, the exception propagates out of the handler. -/
theorem C5_exhausted_fallback (d : Draft) (trace : Bool) (env : Env)
    (att : String → Attempt) (key : String) (lastErr : Option String)
    (hr : TagResult)
    (hlen : ¬ ((jsTrim d.title).length + (jsTrim (d.note.getD "")).length < 3))
    (hsize : ¬ (2000 < (jsTrim d.title).length ∨
      8000 < (jsTrim (d.note.getD "")).length))
    (hkey : env.geminiApiKey = some key)
    (hfmt : looksLikeGoogleKey key = true)
    (hx : firstSuccess d att (modelList env) none = (none, lastErr))
    (hres : heuristicResult d "heuristic:fallback"
      (some (errorMessage lastErr)) = Except.ok hr) :
    POST d trace false env att = RouteResult.ok hr ∧
      hr.model = "heuristic:fallback" ∧ hr.fallback = true ∧
      6 ≤ hr.tags.length ∧ hr.tags.length ≤ 10 ∧
      hr.error = some (errorMessage lastErr) := by
  obtain ⟨hm, hf, he, _, htags⟩ := heuristicResult_ok_spec hres
  have hpost : POST d trace false env att = RouteResult.ok hr := by
    unfold POST
    dsimp only
    rw [if_neg hlen, if_neg hsize, if_neg (by simp), hkey]
    dsimp only
    rw [if_neg (by simp [hfmt])]
    unfold modelPhase
    rw [hx]
    dsimp only
    unfold heuristicRoute
    rw [hres]
  have hb := ensureMinTags_ok_len_bounds
    (show ensureMinTags [] ⟨baseOf d, d.url⟩ 6 10 = Except.ok hr.tags from htags)
  exact ⟨hpost, hm, hf, hb.1, hb.2, he⟩

theorem C5_witness :
    ((¬ ((jsTrim draftAbc.title).length +
          (jsTrim (draftAbc.note.getD "")).length < 3)) ∧
      envOk.geminiApiKey = some "AIzaABCDEFGHIJKLMNOPQRST" ∧
      looksLikeGoogleKey "AIzaABCDEFGHIJKLMNOPQRST" = true ∧
      firstSuccess draftAbc attAllFail (modelList envOk) none =
        (none, some "network down") ∧
      heuristicResult draftAbc "heuristic:fallback"
        (some (errorMessage (some "network down"))) = Except.ok resultC5) ∧
    (POST draftAbc false false envOk attAllFail = RouteResult.ok resultC5 ∧
      resultC5.model = "heuristic:fallback" ∧ resultC5.fallback = true ∧
      6 ≤ resultC5.tags.length ∧ resultC5.tags.length ≤ 10 ∧
      resultC5.error = some (errorMessage (some "network down"))) :=
  ⟨⟨by decide, rfl, by decide, rfl, rfl⟩,
    C5_exhausted_fallback draftAbc false envOk attAllFail
      "AIzaABCDEFGHIJKLMNOPQRST" (some "network down") resultC5
      (by decide) (by decide) rfl (by decide) rfl rfl⟩

/-- C6: a valid draft whose combined trimmed title+note length is below
3 is rejected with HTTP 400 "text too short" for every flag,
environment and collaborator behaviour — in particular the response
does not depend on `att`, so no remote call can have been attempted. -/
theorem C6_short_input_rejected (d : Draft) (trace force : Bool) (env : Env)
    (att : String → Attempt)
    (h : (jsTrim d.title).length + (jsTrim (d.note.getD "")).length < 3) :
    POST d trace force env att = RouteResult.clientError 400 "text too short" := by
  unfold POST
  dsimp only
  rw [if_pos h]

theorem C6_witness :
    ((jsTrim "ab").length + (jsTrim ((some "").getD "")).length < 3) ∧
    POST ⟨"ab", "memo", none, none, some ""⟩ false false envOk attAllFail =
      RouteResult.clientError 400 "text too short" :=
  ⟨by decide,
    C6_short_input_rejected ⟨"ab", "memo", none, none, some ""⟩ false false
      envOk attAllFail (by decide)⟩

/-- C8 counterexample: on the forced-heuristic path (no model summary
exists) the draft `⟨"t", note := "hello"⟩` yields summary `"hello"` —
the first 80 characters of the note — not the draft title `"t"` the
claim prescribes for that case. -/
theorem C8_counterexample :
    RouteResult.summaryOf (POST draftNote false true envOk attAllFail) =
      some "hello" ∧
    draftNote.title = "t" ∧ "hello" ≠ "t" :=
  ⟨rfl, rfl, by decide⟩

/-- C8 (amended): on the model paths — where an attempt wins only once
its text is obtained and its merge through the engine has returned —
the summary is the model-supplied summary when it is a string with
non-blank trim, else the draft title; on the heuristic paths (including
a run in which every attempt failed or threw in its merge) the summary
is the first 80 characters of the note when the note trims non-empty,
else the draft title. -/
theorem C8_amended_summary (d : Draft) (trace force : Bool) (env : Env)
    (att : String → Attempt) (r : TagResult)
    (h : POST d trace force env att = RouteResult.ok r) :
    r.summary =
      match runWinner d force env att with
      | some (_, text, _) => summaryOfText text d.title
      | none => heuristicSummary d := by
  rcases POST_ok_shape d trace force env att r h with
    ⟨label, text, merged, hw, rfl⟩ | ⟨hw, label, err, hres⟩
  · rw [hw]
    rfl
  · rw [hw]
    exact (heuristicResult_ok_spec hres).2.2.2.1

theorem C8_amended_witness :
    POST draftAbc false false envOk attSummary =
      RouteResult.ok (buildModelResponse draftAbc false "gemini-1.5-flash"
        textTagAndSummary ["y", "abc", "お金", "購入", "アカウント", "タスク"]) ∧
    (buildModelResponse draftAbc false "gemini-1.5-flash" textTagAndSummary
        ["y", "abc", "お金", "購入", "アカウント", "タスク"]).summary =
      match runWinner draftAbc false envOk attSummary with
      | some (_, text, _) => summaryOfText text draftAbc.title
      | none => heuristicSummary draftAbc :=
  ⟨rfl, C8_amended_summary draftAbc false false envOk attSummary _ rfl⟩

/-- C9 counterexample: on `x\x7b"a":1\x7d \x7d` the direct parse fails;
the first balanced brace substring parses to an object, but the source's
greedy first-to-last-brace extraction fails to parse and yields nothing
— the client does not extract the first balanced substring. -/
theorem C9_counterexample :
    jsonParse textTrailingBrace = none ∧
    extractJsonObject textTrailingBrace = none ∧
    specExtractJsonObject textTrailingBrace =
      some (Json.obj [("a", Json.num ⟨1, 0⟩)]) :=
  ⟨rfl, rfl, rfl⟩

/-- C9 (amended): whenever the response text is not directly parseable
as JSON, the client parses the slice running from the first opening
brace to the last closing brace of the text (`jsBraceMatch`); if that
extraction or its parse fails, the attempt yields no model tags. -/
theorem C9_amended_greedy_extract (text : String)
    (h : jsonParse text = none) :
    aiObjOfText text = (jsBraceMatch text).bind jsonParse ∧
      ((jsBraceMatch text).bind jsonParse = none → aiTagsOfText text = []) := by
  have hobj : aiObjOfText text = (jsBraceMatch text).bind jsonParse := by
    unfold aiObjOfText
    rw [h]
    rfl
  refine ⟨hobj, fun h2 => ?_⟩
  unfold aiTagsOfText
  rw [hobj, h2]
  rfl

theorem C9_amended_witness :
    jsonParse "plain text" = none ∧
    (aiObjOfText "plain text" = (jsBraceMatch "plain text").bind jsonParse ∧
      ((jsBraceMatch "plain text").bind jsonParse = none →
        aiTagsOfText "plain text" = [])) :=
  ⟨rfl, C9_amended_greedy_extract "plain text" rfl⟩

end AiTagPipeline
